import Mathlib

/-!
Verification of the StratGen campaign backend's modification pipeline.

This file embeds, as executable Lean definitions, the parts of the backend
that the specification's claims are about:

* `regeneratePostCopy` / `validateCopy` — `backend/agents/content_agent.py`
  (`ContentAgent.regenerate_post_copy`, `ContentAgent._validate_copy`);
* the per-action modification executors and `executeModificationPlan` —
  `backend/agents/orchestrator_agent.py`
  (`_execute_content_modification`, `_execute_image_modification`,
  `_execute_influencer_modification`, `_execute_plan_modification`,
  `execute_modification_plan`, `_version_asset`);
* `executeCampaign` — `backend/agents/orchestrator_agent.py`
  (`execute_campaign`, `_generate_all_copy`);
* `classifyModification` — `backend/agents/modification_classifier.py`;
* the sync/background routing and polling status of
  `backend/routes/canvas.py` (`modify_canvas`, `get_modification_status`).

External services (the LLM, the image synthesiser, the web search and the
database) are modelled as explicit parameters: each call's outcome (a parsed
value or a raised exception) is an `Except` input, and the database writes
performed by an execution are recorded in an event trace.
-/

/-- `s.startswith(pre)` on Python strings, computed on the character
lists so that it evaluates inside the kernel. -/
def pyStartsWith (s pre : String) : Bool :=
  pre.toList.isPrefixOf s.toList

/-- `s.lower()` on Python strings: lower-case every character, computed
on the character list so that it evaluates inside the kernel. -/
def pyLower (s : String) : String :=
  String.mk (s.data.map Char.toLower)

/-- Contiguous-sublist test on character lists. -/
def charContains : List Char → List Char → Bool
  | n, [] => n.isEmpty
  | n, c :: t => n.isPrefixOf (c :: t) || charContains n t

/-- `needle in haystack` on Python strings (substring containment),
computed on the character lists so that it evaluates inside the kernel. -/
def pySubstr (needle haystack : String) : Bool :=
  charContains needle.toList haystack.toList

/-- JSON-ish values as they appear in the backend's content dictionaries.
Content documents are flat string-keyed dictionaries whose values are
null, booleans, numbers, strings or lists of strings (hashtag lists). -/
inductive JVal where
  | jnull : JVal
  | jbool : Bool → JVal
  | jnum : Int → JVal
  | jstr : String → JVal
  | jstrList : List String → JVal
deriving DecidableEq, Repr

/-- A Python dict with string keys, kept as an insertion-ordered
association list (Python dicts preserve insertion order). -/
abbrev JDict := List (String × JVal)

/-- Python truthiness of a value (`if v:`): empty string, empty list,
zero, `None` and `False` are falsy. -/
def JVal.truthy : JVal → Bool
  | .jnull => false
  | .jbool b => b
  | .jnum n => n != 0
  | .jstr s => s != ""
  | .jstrList l => !l.isEmpty

/-- `key in d` for a Python dict. -/
def dmem (d : JDict) (k : String) : Bool :=
  d.any (fun kv => kv.1 == k)

/-- `d[key]` for a Python dict (first binding; `jnull` when absent). -/
def dget (d : JDict) (k : String) : JVal :=
  match d.find? (fun kv => kv.1 == k) with
  | some kv => kv.2
  | none => .jnull

/-- `d[key] = v` for a Python dict: overwrite in place if the key exists
(keeping its position), otherwise append. -/
def dset (d : JDict) (k : String) (v : JVal) : JDict :=
  if d.any (fun kv => kv.1 == k) then
    d.map (fun kv => if kv.1 == k then (k, v) else kv)
  else
    d ++ [(k, v)]

/-- One step of the required-field loop of `_validate_copy`
(content_agent.py lines 206-208): `if field not in copy_data or not
copy_data[field]: copy_data[field] = default`. -/
def fillRequired (acc : JDict) (fd : String × JVal) : JDict :=
  if !(dmem acc fd.1 && (dget acc fd.1).truthy) then dset acc fd.1 fd.2 else acc

/-- The hashtag normalisation tail of `_validate_copy` (content_agent.py
lines 210-218): coerce a non-list `hashtags` to `["#Marketing"]`, then
prefix every hashtag with `#` when it does not already start with one. -/
def coerceHashtags (c1 : JDict) : JDict :=
  let c2 :=
    match dget c1 "hashtags" with
    | .jstrList _ => c1
    | _ => dset c1 "hashtags" (.jstrList ["#Marketing"])
  match dget c2 "hashtags" with
  | .jstrList tags =>
      dset c2 "hashtags"
        (.jstrList (tags.map (fun tag => if pyStartsWith tag "#" then tag else "#" ++ tag)))
  | _ => c2

/-- `ContentAgent._validate_copy` (content_agent.py lines 196-220):
fill in missing or falsy required fields with defaults, then normalise
the `hashtags` field. -/
def validateCopy (copyData : JDict) (platform : String) : JDict :=
  let requiredFields : List (String × JVal) :=
    [("platform", .jstr platform),
     ("caption", .jstr "Check out our latest campaign!"),
     ("hashtags", .jstrList ["#Campaign", "#Marketing"]),
     ("description", .jstr "Campaign announcement")]
  coerceHashtags (requiredFields.foldl fillRequired copyData)

/-- The carry-over loop of `regenerate_post_copy` (content_agent.py lines
163-166): `for k, v in old_content.items(): if k not in new_copy:
new_copy[k] = v`. -/
def carryOver (old acc : JDict) : JDict :=
  old.foldl (fun acc kv => if dmem acc kv.1 then acc else acc ++ [kv]) acc

/-- `ContentAgent.regenerate_post_copy` (content_agent.py lines 126-171).
`modelResponse` is the outcome of `self.agent.run` followed by
`_parse_json_response`: `.ok parsed` when the model produced parseable
JSON, `.error` when the call or the JSON parse raised.  On success the
code sets `platform`, copies over every `old_content` field that the
model's output does NOT contain, and validates; on any exception it
returns `old_content` unchanged.  `fieldsToModify` only influences the
prompt text, never the post-processing. -/
def regeneratePostCopy (primaryPlatform : String) (oldContent : JDict)
    (fieldsToModify : Option (List String)) (modelResponse : Except String JDict) : JDict :=
  match modelResponse with
  | .error _ => oldContent
  | .ok parsed =>
      let newCopy := dset parsed "platform" (.jstr primaryPlatform)
      let newCopy := carryOver oldContent newCopy
      validateCopy newCopy primaryPlatform

/-- The prompt note built from `fields_to_modify` (content_agent.py lines
145-149); the only use the code makes of the field subset. -/
def fieldsNote (fieldsToModify : Option (List String)) : String :=
  match fieldsToModify with
  | some fs =>
      if fs.length > 0 then
        "ONLY modify these fields: " ++ String.intercalate ", " fs ++ ". Keep other fields unchanged."
      else "You may modify caption, description, and/or hashtags as needed."
  | none => "You may modify caption, description, and/or hashtags as needed."

example :
    regeneratePostCopy "instagram"
      [("caption", .jstr "old cap"), ("description", .jstr "old desc"),
       ("platform", .jstr "instagram"), ("hashtags", .jstrList ["#A"])]
      (some ["caption"])
      (.ok [("caption", .jstr "new cap"), ("description", .jstr "CHANGED"),
            ("hashtags", .jstrList ["#A"])]) =
      [("caption", .jstr "new cap"), ("description", .jstr "CHANGED"),
       ("hashtags", .jstrList ["#A"]), ("platform", .jstr "instagram")] := by
  decide

/-- A stored asset row, as the modification executors see it after the
`campaign_assets` lookup: its primary key and its live `content`. -/
structure AssetRow where
  id : String
  content : JDict
deriving DecidableEq, Repr

/-- One database side effect performed by a modification executor
(orchestrator_agent.py `_version_asset`, `_set_asset_status`,
`_update_asset_content`, `_save_asset`, `_update_modification` and the
aggregate `canvas_modifications` update of `execute_modification_plan`).
`modNewContentWrite` is any write that sets a Modification Record's
`new_content` column. -/
inductive Ev where
  | versionWrite (assetId : Option String) (content : JDict)
  | statusSet (assetId : Option String) (status : String)
  | updateContent (assetId : Option String) (content : JDict) (status : String)
  | saveAsset (assetType : String) (content : JDict)
  | modNewContentWrite
deriving DecidableEq, Repr

/-- Python truthiness of `target.get("day_number")`: absent, `None`
and `0` are all falsy. -/
def dayTruthy : Option Nat → Bool
  | some d => d != 0
  | none => false

/-- The environment one modification action executes in: its routed
agent, its `target`/`context` fields, the relevant store lookups and the
outcome of each external generator call (`.error` = the call raised). -/
structure ActionEnv where
  agent : String
  primaryPlatform : String := "instagram"
  dayNumber : Option Nat := none
  assetIdTarget : Option String := none
  prevContent : JDict := []
  fieldsToModify : Option (List String) := none
  planSection : Option String := none
  curAsset : Option AssetRow := none
  planAsset : Option AssetRow := none
  prevInfluencers : List JDict := []
  genResponse : Except String JDict := .error "not called"
  genListResponse : Except String (List JDict) := .error "not called"
  planCreateResponse : Except String JDict := .error "not called"
  savedPlanId : String := "new-plan-id"
deriving Repr

/-- Target resolution shared by `_execute_content_modification` and
`_execute_image_modification` (orchestrator_agent.py lines 486-499 and
528-541): with a truthy `day_number`, fetch the live asset (failing when
none exists) and default `previous_content` to its live content;
otherwise use the explicit `asset_id`.  A still-empty `previous_content`
is a `ValueError`. -/
def resolveTarget (env : ActionEnv) (kind : String) :
    Except String (Option String × JDict) :=
  if dayTruthy env.dayNumber then
    match env.curAsset with
    | some cur =>
        let prev := if env.prevContent.isEmpty then cur.content else env.prevContent
        if prev.isEmpty then .error ("No " ++ kind ++ " asset found")
        else .ok (some cur.id, prev)
    | none => .error ("No " ++ kind ++ " asset found")
  else
    if env.prevContent.isEmpty then .error ("No " ++ kind ++ " asset found")
    else .ok (env.assetIdTarget, env.prevContent)

/-- `jnum` of an optional day number (`None` becomes JSON null). -/
def jOfDay : Option Nat → JVal
  | some d => .jnum d
  | none => .jnull

/-- `_execute_content_modification` (orchestrator_agent.py lines 472-513):
resolve the target, snapshot the previous content into a version row,
regenerate the copy (which internally swallows generator errors), then
overwrite the live content with status `completed`. -/
def execContentModification (env : ActionEnv) : Except String JDict × List Ev :=
  match resolveTarget env "copy" with
  | .error e => (.error e, [])
  | .ok (assetId, prev) =>
      let newContent :=
        regeneratePostCopy env.primaryPlatform prev env.fieldsToModify env.genResponse
      (.ok [("asset_id", match assetId with | some s => .jstr s | none => .jnull),
            ("day_number", jOfDay env.dayNumber), ("asset_type", .jstr "copy")],
       [.versionWrite assetId prev, .updateContent assetId newContent "completed"])

/-- `_execute_image_modification` (orchestrator_agent.py lines 515-556):
resolve the target, snapshot a version row, mark the asset `generating`,
call the image regenerator (whose exception propagates), then overwrite
the live content with status `completed`. -/
def execImageModification (env : ActionEnv) : Except String JDict × List Ev :=
  match resolveTarget env "image" with
  | .error e => (.error e, [])
  | .ok (assetId, prev) =>
      let pre := [Ev.versionWrite assetId prev, Ev.statusSet assetId "generating"]
      match env.genResponse with
      | .error e => (.error e, pre)
      | .ok newImage =>
          (.ok [("asset_id", match assetId with | some s => .jstr s | none => .jnull),
                ("day_number", jOfDay env.dayNumber), ("asset_type", .jstr "image")],
           pre ++ [.updateContent assetId newImage "completed"])

/-- `_execute_influencer_modification` (orchestrator_agent.py lines
558-592): snapshot the previous influencer list, run the search, save
every found influencer as a new asset row and set the Modification
Record's `previous_content`/`new_content` immediately. -/
def execInfluencerModification (env : ActionEnv) : Except String JDict × List Ev :=
  match env.genListResponse with
  | .error e => (.error e, [])
  | .ok newList =>
      (.ok [("count", .jnum newList.length), ("asset_type", .jstr "influencer")],
       newList.map (fun item => Ev.saveAsset "influencer" item) ++ [Ev.modNewContentWrite])

/-- The modify-an-existing-plan tail of `_execute_plan_modification`
(orchestrator_agent.py lines 632-644): snapshot a version row,
regenerate the plan (an exception propagates after the snapshot),
overwrite the live content and set the Modification Record's
`previous_content`/`new_content`. -/
def planModTail (env : ActionEnv) (assetId : Option String) (prev : JDict) :
    Except String JDict × List Ev :=
  let pre := [Ev.versionWrite assetId prev]
  match env.genResponse with
  | .error e => (Except.error e, pre)
  | .ok newPlan =>
      (Except.ok [("asset_id", match assetId with | some s => JVal.jstr s | none => JVal.jnull),
                  ("asset_type", JVal.jstr "plan"),
                  ("section", match env.planSection with | some s => JVal.jstr s | none => JVal.jnull)],
       pre ++ [Ev.updateContent assetId newPlan "completed", Ev.modNewContentWrite])

/-- `_execute_plan_modification` (orchestrator_agent.py lines 594-644):
with no `previous_content` in context, fall back to the stored plan
asset, or create a brand-new plan when none exists (no version row in
that branch); otherwise run the modify tail on the resolved target. -/
def execPlanModification (env : ActionEnv) : Except String JDict × List Ev :=
  if env.prevContent.isEmpty then
    match env.planAsset with
    | some row => planModTail env (some row.id) row.content
    | none =>
        match env.planCreateResponse with
        | .error e => (.error e, [])
        | .ok newPlan =>
            (.ok [("asset_id", .jstr env.savedPlanId), ("asset_type", .jstr "plan"),
                  ("section", match env.planSection with | some s => .jstr s | none => .jnull)],
             [.saveAsset "plan" newPlan, .modNewContentWrite])
  else
    planModTail env env.assetIdTarget env.prevContent

/-- The `agent` routing of `execute_modification_plan` (orchestrator_agent.py
lines 424-441); an unknown agent yields an `{"error": ...}` result without
raising. -/
def execAction (env : ActionEnv) : Except String JDict × List Ev :=
  if env.agent == "content_agent" then execContentModification env
  else if env.agent == "image_agent" then execImageModification env
  else if env.agent == "influencer_agent" then execInfluencerModification env
  else if env.agent == "plan_agent" then execPlanModification env
  else (.ok [("error", .jstr ("Unknown agent: " ++ env.agent))], [])

/-- One recorded action outcome (`results.append(...)` in
orchestrator_agent.py lines 443 and 449). -/
structure Outcome where
  action : Nat
  success : Bool
  error : Option String
deriving DecidableEq, Repr

/-- Build the recorded outcome of action `i` from its execution result:
a returned dict is a success unless it carries an `"error"` key; a raised
exception is caught and recorded as a failure with its message. -/
def mkOutcome (i : Nat) (r : Except String JDict) : Outcome :=
  match r with
  | .ok d => { action := i, success := !(dmem d "error"), error := none }
  | .error e => { action := i, success := false, error := some e }

/-- The aggregate result of `execute_modification_plan`. -/
structure BatchResult where
  totalActions : Nat
  successful : Nat
  outcomes : List Outcome
  trace : List Ev
deriving Repr

/-- `execute_modification_plan` (orchestrator_agent.py lines 397-470):
run every action inside its own try/except, record one outcome per
action, then write the aggregate results into the Modification Record's
`new_content` and report the success count. -/
def executeModificationPlan (envs : List ActionEnv) : BatchResult :=
  let per := envs.map execAction
  let outcomes := per.enum.map (fun p => mkOutcome (p.1 + 1) p.2.1)
  { totalActions := envs.length
    successful := (outcomes.filter (fun o => o.success)).length
    outcomes := outcomes
    trace := (per.map Prod.snd).flatten ++ [Ev.modNewContentWrite] }

/-- An observable step of `execute_campaign`: a campaign status update,
a per-day copy generation attempt, or the launch of one of the three
parallel Phase 2 tasks. -/
inductive CEv where
  | statusUpdate (status : String)
  | copyGenCall (day : Nat)
  | imagesTask
  | influencersTask
  | planTask
deriving DecidableEq, Repr

/-- The environment `execute_campaign` runs in: the posting schedule's
parsed day numbers with each day's copy-generation outcome, and the
outcome of each Phase 2 task as `asyncio.gather(..., return_exceptions=True)`
sees it (`.error` = the task raised). -/
structure CampaignEnv where
  schedule : List (Nat × Except String JDict)
  imagesResult : Except String (List JDict)
  influencersResult : Except String (List JDict)
  planResult : Except String (Option JDict)
deriving Repr

/-- `_generate_all_copy` (orchestrator_agent.py lines 174-218): attempt
every day, keep the successes, swallow per-day exceptions. -/
def generateAllCopy (schedule : List (Nat × Except String JDict)) :
    List (Nat × JDict) :=
  schedule.filterMap (fun p =>
    match p.2 with
    | .ok c => some (p.1, c)
    | .error _ => none)

/-- What `execute_campaign` returns and leaves behind. -/
structure CampaignOutcome where
  returned : Bool
  finalStatus : String
  successCount : Option Nat
  trace : List CEv
deriving DecidableEq, Repr

/-- `1 if b else 0`. -/
def b2n (b : Bool) : Nat := if b then 1 else 0

/-- `execute_campaign` (orchestrator_agent.py lines 31-172): set status
`executing`, run Phase 1; zero copy successes raises, which the outer
handler turns into status `failed` and a `False` return.  Otherwise run
the three Phase 2 tasks gathered with exceptions captured, coerce a
raised task to an empty result, set status `completed` and report
`1 + (1 per truthy Phase 2 result)` of 4 components. -/
def executeCampaign (env : CampaignEnv) : CampaignOutcome :=
  let copyTrace := env.schedule.map (fun p => CEv.copyGenCall p.1)
  let copyAssets := generateAllCopy env.schedule
  if copyAssets.isEmpty then
    { returned := false
      finalStatus := "failed"
      successCount := none
      trace := [CEv.statusUpdate "executing"] ++ copyTrace ++ [CEv.statusUpdate "failed"] }
  else
    let imageAssets := match env.imagesResult with | .ok l => l | .error _ => []
    let influencerAssets := match env.influencersResult with | .ok l => l | .error _ => []
    let planAsset : Option JDict := match env.planResult with | .ok p => p | .error _ => none
    let successCount :=
      1 + b2n (!imageAssets.isEmpty) + b2n (!influencerAssets.isEmpty) +
        b2n (match planAsset with | some p => !p.isEmpty | none => false)
    { returned := true
      finalStatus := "completed"
      successCount := some successCount
      trace := [CEv.statusUpdate "executing"] ++ copyTrace ++
        [CEv.imagesTask, CEv.influencersTask, CEv.planTask, CEv.statusUpdate "completed"] }

/-- A `(asset_id, version_number)` row of the `asset_versions` table. -/
abbrev VersionRow := String × Nat

/-- The version numbers stored for one asset, in insertion order. -/
def versionsOf (assetId : String) (rows : List VersionRow) : List Nat :=
  (rows.filter (fun r => r.1 == assetId)).map Prod.snd

/-- The `SELECT version_number ... ORDER BY version_number DESC LIMIT 1`
read of `_version_asset`: the stored maximum, defaulting to 0. -/
def maxVersion (assetId : String) (rows : List VersionRow) : Nat :=
  (versionsOf assetId rows).foldr max 0

/-- `_version_asset` (orchestrator_agent.py lines 650-659), restricted to
the version-number bookkeeping: insert a row for `assetId` numbered one
more than the stored maximum for that asset (1 when none exists). -/
def versionAsset (assetId : String) (rows : List VersionRow) : List VersionRow :=
  rows ++ [(assetId, maxVersion assetId rows + 1)]

/-- The `asset_versions` table after a sequence of snapshot operations
(one asset id per snapshot) starting from an empty table. -/
def applySnapshots (ops : List String) : List VersionRow :=
  ops.foldl (fun rows a => versionAsset a rows) []

/-- One action of a classifier plan (modification_classifier.py output
shape). -/
structure CAction where
  assetType : String
  action : String
  dayNumbers : Option (List Nat)
  applyTo : Option String
  matchText : Option String
  fields : List String
  userInstruction : String
  modeHint : Option String
deriving DecidableEq, Repr

/-- A classifier plan. -/
structure MPlan where
  needsClarification : Bool
  clarifyMessage : Option String
  actions : List CAction
deriving DecidableEq, Repr

/-- The influencer keyword list of `classify_modification`
(modification_classifier.py lines 152-156). -/
def influencerKeywords : List String :=
  ["influencer", "influencers", "find influencers", "refetch influencers",
   "recommend influencers", "scout influencers", "search influencers",
   "fetch influencers", "get influencers"]

/-- `any(k in text_lower for k in influencer_keywords)` over the
lower-cased message. -/
def hasInfluencerKeyword (message : String) : Bool :=
  influencerKeywords.any (fun k => pySubstr k (pyLower message))

/-- The hard-coded plan returned by the influencer short-circuit
(modification_classifier.py lines 158-173). -/
def influencerShortCircuitPlan (message : String) : MPlan :=
  { needsClarification := false
    clarifyMessage := none
    actions := [{ assetType := "influencer"
                  action := "regenerate"
                  dayNumbers := none
                  applyTo := some "all"
                  matchText := none
                  fields := []
                  userInstruction := message
                  modeHint := some "async" }] }

/-- `classify_modification` (modification_classifier.py lines 149-209):
if any influencer keyword occurs in the lower-cased message, return the
hard-coded influencer plan; otherwise run the LLM-based general
classifier with its regex fallback, here abstracted as `generalPath`
since its output depends on the external model.  The returned flag
records whether the general (LLM-based) path was invoked. -/
def classifyModification (message : String) (generalPath : Unit → MPlan) :
    MPlan × Bool :=
  if hasInfluencerKeyword message then
    (influencerShortCircuitPlan message, false)
  else
    (generalPath (), true)

/-- The `has_async` test of `modify_canvas` (canvas.py lines 232-236)
over the batch's `agent` fields. -/
def hasAsyncAgents (agents : List String) : Bool :=
  agents.any (fun a =>
    a == "image_agent" || a == "influencer_agent" || a == "plan_agent")

/-- The routing decision of `modify_canvas` (canvas.py lines 237-260):
the returned HTTP status string and whether the batch was executed
synchronously (as opposed to dispatched as a background task). -/
def routeModification (agents : List String) : String × Bool :=
  if hasAsyncAgents agents then ("accepted", false) else ("completed", true)

/-- The polling status of `get_modification_status` (canvas.py lines
331-338): `completed` exactly when the record's `new_content` is
non-null, else `processing`. -/
def pollStatus (newContent : Option JVal) : String :=
  match newContent with
  | some _ => "completed"
  | none => "processing"

/-- Number of writes to a Modification Record's `new_content` column in
a trace. -/
def newContentWrites (tr : List Ev) : Nat :=
  (tr.filter (fun e => e == Ev.modNewContentWrite)).length

/-! ### Dictionary toolkit lemmas -/

theorem dget_nil (k : String) : dget [] k = .jnull := rfl

theorem dmem_nil (k : String) : dmem [] k = false := rfl

theorem dget_cons (a : String) (b : JVal) (t : JDict) (k : String) :
    dget ((a, b) :: t) k = if a == k then b else dget t k := by
  by_cases h : a = k
  · have hb : (a == k) = true := beq_iff_eq.mpr h
    simp [dget, List.find?, hb]
  · have hb : (a == k) = false := beq_eq_false_iff_ne.mpr h
    simp [dget, List.find?, hb]

theorem dmem_cons (a : String) (b : JVal) (t : JDict) (k : String) :
    dmem ((a, b) :: t) k = (a == k || dmem t k) := by
  simp [dmem, List.any_cons]

theorem dget_of_not_dmem (d : JDict) (k : String) (h : dmem d k = false) :
    dget d k = .jnull := by
  induction d with
  | nil => rfl
  | cons hd t ih =>
      obtain ⟨a, b⟩ := hd
      rw [dmem_cons] at h
      rw [dget_cons]
      rcases Bool.or_eq_false_iff.mp h with ⟨h1, h2⟩
      rw [h1]
      simpa using ih h2

theorem dmem_append_single (d : JDict) (k₀ k : String) (v₀ : JVal) :
    dmem (d ++ [(k₀, v₀)]) k = (dmem d k || k₀ == k) := by
  simp [dmem, List.any_append]

theorem dget_append_single (d : JDict) (k₀ k : String) (v₀ : JVal) :
    dget (d ++ [(k₀, v₀)]) k =
      if dmem d k then dget d k else if k₀ == k then v₀ else .jnull := by
  induction d with
  | nil => simp [dget_cons, dmem_nil, dget_nil]
  | cons hd t ih =>
      obtain ⟨a, b⟩ := hd
      rw [List.cons_append, dget_cons, dmem_cons, dget_cons]
      by_cases h : a = k
      · have hb : (a == k) = true := beq_iff_eq.mpr h
        simp [hb]
      · have hb : (a == k) = false := beq_eq_false_iff_ne.mpr h
        rw [hb, Bool.false_or]
        simp only [Bool.false_eq_true, if_false]
        exact ih

theorem dget_map_subst (d : JDict) (k' k : String) (v : JVal) (h : k ≠ k') :
    dget (d.map (fun kv => if kv.1 == k' then (k', v) else kv)) k = dget d k := by
  induction d with
  | nil => rfl
  | cons hd t ih =>
      obtain ⟨a, b⟩ := hd
      by_cases ha : a = k'
      · have hb : (a == k') = true := beq_iff_eq.mpr ha
        have hk : (k' == k) = false := beq_eq_false_iff_ne.mpr (Ne.symm h)
        have hak : (a == k) = false := by
          subst ha; exact hk
        simp only [List.map_cons, hb, if_true]
        rw [dget_cons, dget_cons, hk, hak]
        simpa using ih
      · have hb : (a == k') = false := beq_eq_false_iff_ne.mpr ha
        simp only [List.map_cons, hb, Bool.false_eq_true, if_false]
        rw [dget_cons, dget_cons]
        by_cases hak : a = k
        · have : (a == k) = true := beq_iff_eq.mpr hak
          simp [this]
        · have : (a == k) = false := beq_eq_false_iff_ne.mpr hak
          simpa [this] using ih

theorem dget_dset_ne (d : JDict) (k' k : String) (v : JVal) (h : k ≠ k') :
    dget (dset d k' v) k = dget d k := by
  unfold dset
  split
  · exact dget_map_subst d k' k v h
  · rw [dget_append_single]
    have hk : (k' == k) = false := beq_eq_false_iff_ne.mpr (Ne.symm h)
    rw [hk]
    by_cases hm : dmem d k = true
    · simp [hm]
    · have hm' : dmem d k = false := by
        cases hdm : dmem d k
        · rfl
        · exact absurd hdm hm
      simp [hm', dget_of_not_dmem d k hm']

theorem dmem_map_subst (d : JDict) (k' k : String) (v : JVal) :
    dmem (d.map (fun kv => if kv.1 == k' then (k', v) else kv)) k = dmem d k := by
  induction d with
  | nil => rfl
  | cons hd t ih =>
      obtain ⟨a, b⟩ := hd
      by_cases ha : a = k'
      · have hb : (a == k') = true := beq_iff_eq.mpr ha
        simp only [List.map_cons, hb, if_true]
        rw [dmem_cons, dmem_cons, ih]
        subst ha; rfl
      · have hb : (a == k') = false := beq_eq_false_iff_ne.mpr ha
        simp only [List.map_cons, hb, Bool.false_eq_true, if_false]
        rw [dmem_cons, dmem_cons, ih]

theorem dmem_dset (d : JDict) (k' k : String) (v : JVal) :
    dmem (dset d k' v) k = (dmem d k || k' == k) := by
  unfold dset
  split
  · rename_i hany
    rw [dmem_map_subst]
    by_cases hk : k' = k
    · subst hk
      have : dmem d k' = true := by simpa [dmem] using hany
      simp [this]
    · have : (k' == k) = false := beq_eq_false_iff_ne.mpr hk
      simp [this]
  · exact dmem_append_single d k' k v

theorem dget_carryOver (old : JDict) (acc : JDict) (k : String) :
    dget (carryOver old acc) k =
      if dmem acc k then dget acc k else dget old k := by
  induction old generalizing acc with
  | nil =>
      by_cases hm : dmem acc k = true
      · simp [carryOver, hm]
      · have hm' : dmem acc k = false := by
          cases h : dmem acc k
          · rfl
          · exact absurd h hm
        simp [carryOver, hm', dget_of_not_dmem acc k hm', dget_nil]
  | cons hd t ih =>
      obtain ⟨k₀, v₀⟩ := hd
      show dget (carryOver t (if dmem acc k₀ then acc else acc ++ [(k₀, v₀)])) k = _
      by_cases h0 : dmem acc k₀ = true
      · rw [if_pos h0, ih]
        rw [dget_cons]
        by_cases hk : k₀ = k
        · subst hk
          have hb : (k₀ == k₀) = true := beq_iff_eq.mpr rfl
          simp [h0, hb]
        · have hb : (k₀ == k) = false := beq_eq_false_iff_ne.mpr hk
          simp [hb]
      · have h0' : dmem acc k₀ = false := by
          cases h : dmem acc k₀
          · rfl
          · exact absurd h h0
        rw [if_neg (by simp [h0']), ih]
        rw [dmem_append_single, dget_append_single, dget_cons]
        by_cases hk : k₀ = k
        · subst hk
          have hb : (k₀ == k₀) = true := beq_iff_eq.mpr rfl
          simp [hb, h0']
        · have hb : (k₀ == k) = false := beq_eq_false_iff_ne.mpr hk
          by_cases hm : dmem acc k = true
          · simp [hb, hm]
          · have hm' : dmem acc k = false := by
              cases h : dmem acc k
              · rfl
              · exact absurd h hm
            simp [hb, hm']

theorem dmem_carryOver (old : JDict) (acc : JDict) (k : String) :
    dmem (carryOver old acc) k = (dmem acc k || dmem old k) := by
  induction old generalizing acc with
  | nil => simp [carryOver, dmem_nil]
  | cons hd t ih =>
      obtain ⟨k₀, v₀⟩ := hd
      show dmem (carryOver t (if dmem acc k₀ then acc else acc ++ [(k₀, v₀)])) k = _
      by_cases h0 : dmem acc k₀ = true
      · rw [if_pos h0, ih, dmem_cons]
        by_cases hk : k₀ = k
        · subst hk; simp [h0]
        · have hb : (k₀ == k) = false := beq_eq_false_iff_ne.mpr hk
          simp [hb]
      · have h0' : dmem acc k₀ = false := by
          cases h : dmem acc k₀
          · rfl
          · exact absurd h h0
        rw [if_neg (by simp [h0']), ih, dmem_append_single, dmem_cons]
        cases hm : dmem acc k <;> cases hb : (k₀ == k) <;> simp [hm, hb]

theorem dget_dset_eq (d : JDict) (k : String) (v : JVal) :
    dget (dset d k v) k = v := by
  unfold dset
  split
  · rename_i hany
    induction d with
    | nil => simp [dmem] at hany
    | cons hd t ih =>
        obtain ⟨a, b⟩ := hd
        by_cases ha : a = k
        · have hb : (a == k) = true := beq_iff_eq.mpr ha
          have hkk : (k == k) = true := beq_iff_eq.mpr rfl
          simp only [List.map_cons, hb, if_true]
          rw [dget_cons, hkk]
          simp
        · have hb : (a == k) = false := beq_eq_false_iff_ne.mpr ha
          simp only [List.map_cons, hb, Bool.false_eq_true, if_false]
          rw [dget_cons, hb]
          simp only [Bool.false_eq_true, if_false]
          apply ih
          simp only [List.any_cons, hb, Bool.false_or] at hany
          exact hany
  · rename_i hany
    have hm : dmem d k = false := by
      cases h : dmem d k
      · rfl
      · exact absurd (by simpa [dmem] using h) hany
    rw [dget_append_single, hm]
    simp

theorem fillRequired_dget (acc : JDict) (fd : String × JVal) (k : String)
    (hm : dmem acc k = true) (ht : (dget acc k).truthy = true) :
    dget (fillRequired acc fd) k = dget acc k ∧
    dmem (fillRequired acc fd) k = true := by
  unfold fillRequired
  by_cases hf : fd.1 = k
  · have : (dmem acc fd.1 && (dget acc fd.1).truthy) = true := by
      rw [hf, hm, ht]; rfl
    rw [this]
    simp [hm]
  · split
    · exact ⟨dget_dset_ne acc fd.1 k fd.2 (Ne.symm hf),
        by rw [dmem_dset, hm]; simp⟩
    · exact ⟨rfl, hm⟩

theorem dget_coerceHashtags (c1 : JDict) (k : String) (hkh : k ≠ "hashtags") :
    dget (coerceHashtags c1) k = dget c1 k := by
  unfold coerceHashtags
  rcases hh : dget c1 "hashtags" with _ | b | n | s | tags
  all_goals simp only [hh]
  · rw [dget_dset_eq c1 "hashtags" (JVal.jstrList ["#Marketing"])]
    rw [dget_dset_ne _ "hashtags" k _ hkh, dget_dset_ne _ "hashtags" k _ hkh]
  · rw [dget_dset_eq c1 "hashtags" (JVal.jstrList ["#Marketing"])]
    rw [dget_dset_ne _ "hashtags" k _ hkh, dget_dset_ne _ "hashtags" k _ hkh]
  · rw [dget_dset_eq c1 "hashtags" (JVal.jstrList ["#Marketing"])]
    rw [dget_dset_ne _ "hashtags" k _ hkh, dget_dset_ne _ "hashtags" k _ hkh]
  · rw [dget_dset_eq c1 "hashtags" (JVal.jstrList ["#Marketing"])]
    rw [dget_dset_ne _ "hashtags" k _ hkh, dget_dset_ne _ "hashtags" k _ hkh]
  · rw [dget_dset_ne _ "hashtags" k _ hkh]

theorem validateCopy_preserves (c : JDict) (platform k : String)
    (hkh : k ≠ "hashtags")
    (hm : dmem c k = true) (ht : (dget c k).truthy = true) :
    dget (validateCopy c platform) k = dget c k := by
  obtain ⟨e1, m1⟩ := fillRequired_dget c ("platform", JVal.jstr platform) k hm ht
  have t1 : (dget (fillRequired c ("platform", JVal.jstr platform)) k).truthy = true := by
    rw [e1]; exact ht
  obtain ⟨e2, m2⟩ := fillRequired_dget _ ("caption", JVal.jstr "Check out our latest campaign!") k m1 t1
  have t2 : (dget (fillRequired (fillRequired c ("platform", JVal.jstr platform))
      ("caption", JVal.jstr "Check out our latest campaign!")) k).truthy = true := by
    rw [e2]; exact t1
  obtain ⟨e3, m3⟩ := fillRequired_dget _ ("hashtags", JVal.jstrList ["#Campaign", "#Marketing"]) k m2 t2
  have t3 : (dget (fillRequired (fillRequired (fillRequired c ("platform", JVal.jstr platform))
      ("caption", JVal.jstr "Check out our latest campaign!"))
      ("hashtags", JVal.jstrList ["#Campaign", "#Marketing"])) k).truthy = true := by
    rw [e3]; exact t2
  obtain ⟨e4, _⟩ := fillRequired_dget _ ("description", JVal.jstr "Campaign announcement") k m3 t3
  show dget (coerceHashtags (fillRequired (fillRequired (fillRequired (fillRequired c
    ("platform", JVal.jstr platform)) ("caption", JVal.jstr "Check out our latest campaign!"))
    ("hashtags", JVal.jstrList ["#Campaign", "#Marketing"]))
    ("description", JVal.jstr "Campaign announcement"))) k = dget c k
  rw [dget_coerceHashtags _ k hkh, e4, e3, e2, e1]

/-- C7 (amended): for a `modify_content` copy action, a field of
`previous_content` is guaranteed to survive bit-for-bit only when the
generator's parsed output does not itself contain that field: the code
copies over exactly the old fields **absent** from the model output
(and then only normalises `platform` and `hashtags`).  A non-`platform`,
non-`hashtags` field with a truthy previous value that the model output
omits is preserved whatever `fields_to_modify` says; a field the model
returns is taken from the model output even when it is outside the
requested subset. -/
theorem regeneratePostCopy_preserves_absent_fields
    (platform : String) (old parsed : JDict) (fields : Option (List String)) (k : String)
    (hmo : dmem old k = true) (hmp : dmem parsed k = false)
    (hkp : k ≠ "platform") (hkh : k ≠ "hashtags")
    (ht : (dget old k).truthy = true) :
    dget (regeneratePostCopy platform old fields (.ok parsed)) k = dget old k := by
  show dget (validateCopy (carryOver old (dset parsed "platform" (.jstr platform))) platform) k
      = dget old k
  have hbase : dmem (dset parsed "platform" (.jstr platform)) k = false := by
    rw [dmem_dset, hmp]
    have : ("platform" == k) = false := beq_eq_false_iff_ne.mpr (Ne.symm hkp)
    rw [this]
    rfl
  have hcget : dget (carryOver old (dset parsed "platform" (.jstr platform))) k = dget old k := by
    rw [dget_carryOver, hbase]
    simp
  have hcmem : dmem (carryOver old (dset parsed "platform" (.jstr platform))) k = true := by
    rw [dmem_carryOver, hbase, hmo]
    rfl
  have hct : (dget (carryOver old (dset parsed "platform" (.jstr platform))) k).truthy = true := by
    rw [hcget]; exact ht
  rw [validateCopy_preserves _ platform k hkh hcmem hct, hcget]

/-- Witness for C7's amended theorem at a concrete input: the old
`description` is absent from the model's output and survives unchanged. -/
theorem regeneratePostCopy_preserves_absent_fields_witness :
    dget (regeneratePostCopy "instagram"
      [("caption", .jstr "Old caption"), ("description", .jstr "old description")]
      (some ["caption"])
      (.ok [("caption", .jstr "New caption")])) "description" = .jstr "old description" :=
  regeneratePostCopy_preserves_absent_fields "instagram"
    [("caption", .jstr "Old caption"), ("description", .jstr "old description")]
    [("caption", .jstr "New caption")] (some ["caption"]) "description"
    (by decide) (by decide) (by decide) (by decide) (by decide)

/-- Counterexample to C7 as stated: with `fields_to_modify = ["caption"]`,
a model output that rewrites `description` anyway is persisted — the
code does not restore fields outside the subset from `previous_content`
when the model output contains them. -/
theorem regeneratePostCopy_subset_counterexample :
    ("description" ∉ (["caption"] : List String)) ∧
    dget [("caption", JVal.jstr "Old caption"), ("description", JVal.jstr "old description"),
          ("platform", JVal.jstr "instagram"), ("hashtags", JVal.jstrList ["#Old"])]
        "description" = .jstr "old description" ∧
    dget (regeneratePostCopy "instagram"
      [("caption", .jstr "Old caption"), ("description", .jstr "old description"),
       ("platform", .jstr "instagram"), ("hashtags", .jstrList ["#Old"])]
      (some ["caption"])
      (.ok [("caption", .jstr "New caption"), ("description", .jstr "MODEL REWROTE THIS"),
            ("hashtags", .jstrList ["#Old"])])) "description" = .jstr "MODEL REWROTE THIS" := by
  refine ⟨by decide, by decide, ?_⟩
  decide

/-- The versioning-ordering property of a trace: every overwrite of an
asset's live content is preceded, strictly earlier in the trace, by an
Asset Version insert for the same asset holding the snapshot `pre`. -/
def snapshotThenOverwrite (tr : List Ev) (pre : JDict) : Prop :=
  ∀ (j : Nat) (a : Option String) (c : JDict) (s : String),
    tr[j]? = some (Ev.updateContent a c s) →
      ∃ i : Nat, i < j ∧ tr[i]? = some (Ev.versionWrite a pre)

theorem sto_of_no_update (tr : List Ev) (pre : JDict)
    (h : ∀ e ∈ tr, ∀ a c s, e ≠ Ev.updateContent a c s) :
    snapshotThenOverwrite tr pre := by
  intro j a c s hj
  have hmem : Ev.updateContent a c s ∈ tr := List.getElem?_mem hj
  exact absurd rfl (h _ hmem a c s)

theorem sto_two (a : Option String) (pre nc : JDict) (st : String) :
    snapshotThenOverwrite [Ev.versionWrite a pre, Ev.updateContent a nc st] pre := by
  intro j a' c s hj
  match j with
  | 0 => simp at hj
  | 1 =>
      simp only [List.getElem?_cons_succ, List.getElem?_cons_zero, Option.some.injEq,
        Ev.updateContent.injEq] at hj
      refine ⟨0, by omega, ?_⟩
      simp [hj.1]
  | n + 2 => simp at hj

theorem sto_three (a : Option String) (pre nc : JDict) (st0 st : String) :
    snapshotThenOverwrite
      [Ev.versionWrite a pre, Ev.statusSet a st0, Ev.updateContent a nc st] pre := by
  intro j a' c s hj
  match j with
  | 0 => simp at hj
  | 1 => simp at hj
  | 2 =>
      simp only [List.getElem?_cons_succ, List.getElem?_cons_zero, Option.some.injEq,
        Ev.updateContent.injEq] at hj
      refine ⟨0, by omega, ?_⟩
      simp [hj.1]
  | n + 3 => simp at hj

theorem sto_update_then_mod (a : Option String) (pre nc : JDict) (st : String) :
    snapshotThenOverwrite
      [Ev.versionWrite a pre, Ev.updateContent a nc st, Ev.modNewContentWrite] pre := by
  intro j a' c s hj
  match j with
  | 0 => simp at hj
  | 1 =>
      simp only [List.getElem?_cons_succ, List.getElem?_cons_zero, Option.some.injEq,
        Ev.updateContent.injEq] at hj
      refine ⟨0, by omega, ?_⟩
      simp [hj.1]
  | 2 => simp at hj
  | n + 3 => simp at hj

theorem resolveTarget_prev_empty (env : ActionEnv) (kind : String) (cur : AssetRow)
    (aid : Option String) (prev : JDict)
    (h0 : env.prevContent = []) (hcur : env.curAsset = some cur)
    (hok : resolveTarget env kind = .ok (aid, prev)) :
    prev = cur.content ∧ aid = some cur.id := by
  unfold resolveTarget at hok
  by_cases hday : dayTruthy env.dayNumber = true
  · rw [if_pos hday, hcur] at hok
    rw [h0] at hok
    simp only [List.isEmpty_nil, if_true] at hok
    split at hok
    · exact absurd hok (by simp)
    · simp only [Except.ok.injEq, Prod.mk.injEq] at hok
      exact ⟨hok.2.symm, hok.1.symm⟩
  · have hday' : dayTruthy env.dayNumber = false := by
      cases h : dayTruthy env.dayNumber
      · rfl
      · exact absurd h hday
    rw [if_neg (by simp [hday']), h0] at hok
    simp at hok

theorem resolveTarget_prev_nonempty (env : ActionEnv) (kind : String)
    (aid : Option String) (prev : JDict)
    (h0 : env.prevContent ≠ [])
    (hok : resolveTarget env kind = .ok (aid, prev)) :
    prev = env.prevContent := by
  have hne : env.prevContent.isEmpty = false := by
    cases h : env.prevContent
    · exact absurd h h0
    · rfl
  unfold resolveTarget at hok
  by_cases hday : dayTruthy env.dayNumber = true
  · rw [if_pos hday] at hok
    cases hcur : env.curAsset with
    | none => rw [hcur] at hok; simp at hok
    | some cur =>
        rw [hcur, hne] at hok
        simp only [Bool.false_eq_true, if_false] at hok
        split at hok
        · exact absurd hok (by simp)
        · simp only [Except.ok.injEq, Prod.mk.injEq] at hok
          exact hok.2.symm
  · have hday' : dayTruthy env.dayNumber = false := by
      cases h : dayTruthy env.dayNumber
      · rfl
      · exact absurd h hday
    rw [if_neg (by simp [hday']), hne] at hok
    simp only [Bool.false_eq_true, if_false, Except.ok.injEq, Prod.mk.injEq] at hok
    exact hok.2.symm

theorem execContent_sto (env : ActionEnv) (pre : JDict)
    (h : ∀ aid prev, resolveTarget env "copy" = .ok (aid, prev) → prev = pre) :
    snapshotThenOverwrite (execContentModification env).2 pre := by
  unfold execContentModification
  cases hr : resolveTarget env "copy" with
  | error e => exact sto_of_no_update [] pre (by simp)
  | ok pr =>
      obtain ⟨aid, prev⟩ := pr
      have hpp := h aid prev hr
      subst hpp
      exact sto_two aid prev _ "completed"

theorem execImage_sto (env : ActionEnv) (pre : JDict)
    (h : ∀ aid prev, resolveTarget env "image" = .ok (aid, prev) → prev = pre) :
    snapshotThenOverwrite (execImageModification env).2 pre := by
  unfold execImageModification
  cases hr : resolveTarget env "image" with
  | error e => exact sto_of_no_update [] pre (by simp)
  | ok pr =>
      obtain ⟨aid, prev⟩ := pr
      have hpp := h aid prev hr
      subst hpp
      cases env.genResponse with
      | error e =>
          refine sto_of_no_update [Ev.versionWrite aid prev, Ev.statusSet aid "generating"] prev ?_
          intro e' he' a c s
          simp only [List.mem_cons, List.not_mem_nil, or_false] at he'
          rcases he' with h' | h' <;> simp [h']
      | ok newImage => exact sto_three aid prev _ "generating" "completed"

theorem planModTail_sto (env : ActionEnv) (assetId : Option String) (prev : JDict) :
    snapshotThenOverwrite (planModTail env assetId prev).2 prev := by
  unfold planModTail
  cases env.genResponse with
  | error e =>
      refine sto_of_no_update [Ev.versionWrite assetId prev] prev ?_
      intro e' he' a c s
      simp only [List.mem_cons, List.not_mem_nil, or_false] at he'
      simp [he']
  | ok newPlan => exact sto_update_then_mod assetId prev newPlan "completed"

theorem execPlan_sto_stored (env : ActionEnv) (row : AssetRow)
    (h0 : env.prevContent = []) (hrow : env.planAsset = some row) :
    snapshotThenOverwrite (execPlanModification env).2 row.content := by
  unfold execPlanModification
  rw [h0, hrow]
  simp only [List.isEmpty_nil, if_true]
  exact planModTail_sto env (some row.id) row.content

theorem execPlan_sto_ctx (env : ActionEnv) (h0 : env.prevContent ≠ []) :
    snapshotThenOverwrite (execPlanModification env).2 env.prevContent := by
  unfold execPlanModification
  have hne : env.prevContent.isEmpty = false := by
    cases h : env.prevContent
    · exact absurd h h0
    · rfl
  rw [hne]
  simp only [Bool.false_eq_true, if_false]
  exact planModTail_sto env env.assetIdTarget env.prevContent

/-- C1: for every modification action on a copy, image, or plan asset,
a version row holding the asset's pre-modification content (the
context-supplied `previous_content`, or the live content when the
context carries none) is written strictly before any overwrite of the
asset's live content in the same action's trace. -/
theorem version_snapshot_before_overwrite :
    ∀ (env : ActionEnv) (cur : AssetRow),
    (env.prevContent = [] → env.curAsset = some cur →
       snapshotThenOverwrite (execContentModification env).2 cur.content ∧
       snapshotThenOverwrite (execImageModification env).2 cur.content) ∧
    (env.prevContent = [] → env.planAsset = some cur →
       snapshotThenOverwrite (execPlanModification env).2 cur.content) ∧
    (env.prevContent ≠ [] →
       snapshotThenOverwrite (execContentModification env).2 env.prevContent ∧
       snapshotThenOverwrite (execImageModification env).2 env.prevContent ∧
       snapshotThenOverwrite (execPlanModification env).2 env.prevContent) := by
  intro env cur
  refine ⟨?_, ?_, ?_⟩
  · intro h0 hcur
    exact ⟨execContent_sto env cur.content
        (fun aid prev hok => (resolveTarget_prev_empty env "copy" cur aid prev h0 hcur hok).1),
      execImage_sto env cur.content
        (fun aid prev hok => (resolveTarget_prev_empty env "image" cur aid prev h0 hcur hok).1)⟩
  · intro h0 hrow
    exact execPlan_sto_stored env cur h0 hrow
  · intro h0
    exact ⟨execContent_sto env env.prevContent
        (fun aid prev hok => resolveTarget_prev_nonempty env "copy" aid prev h0 hok),
      execImage_sto env env.prevContent
        (fun aid prev hok => resolveTarget_prev_nonempty env "image" aid prev h0 hok),
      execPlan_sto_ctx env h0⟩

/-- Witness for C1 at a concrete content-modification action whose
context carries no `previous_content`: the live content is snapshotted
before the overwrite. -/
theorem version_snapshot_before_overwrite_witness :
    snapshotThenOverwrite
      (execContentModification
        { agent := "content_agent", dayNumber := some 1,
          curAsset := some { id := "a1", content := [("caption", JVal.jstr "old")] },
          genResponse := .ok [("caption", JVal.jstr "new")] }).2
      [("caption", JVal.jstr "old")] :=
  ((version_snapshot_before_overwrite
      { agent := "content_agent", dayNumber := some 1,
        curAsset := some { id := "a1", content := [("caption", JVal.jstr "old")] },
        genResponse := .ok [("caption", JVal.jstr "new")] }
      { id := "a1", content := [("caption", JVal.jstr "old")] }).1 rfl rfl).1

/-- C10: when the copy generator raises (the model call fails or its
output fails to parse as JSON), `regenerate_post_copy` swallows the
exception and returns the previous content, so the enclosing
content-modification action overwrites the asset with its old content
at status `completed` and is recorded as a success, and the batch
trace still shows the snapshot-then-overwrite pair. -/
theorem contentModification_generator_failure_is_silent_success :
    ∀ (env : ActionEnv) (cur : AssetRow) (e : String),
    env.agent = "content_agent" →
    env.genResponse = .error e →
    dayTruthy env.dayNumber = true →
    env.curAsset = some cur →
    env.prevContent = [] →
    cur.content ≠ [] →
    regeneratePostCopy env.primaryPlatform cur.content env.fieldsToModify env.genResponse
        = cur.content ∧
    (executeModificationPlan [env]).outcomes =
      [{ action := 1, success := true, error := none }] ∧
    (executeModificationPlan [env]).trace =
      [Ev.versionWrite (some cur.id) cur.content,
       Ev.updateContent (some cur.id) cur.content "completed",
       Ev.modNewContentWrite] := by
  intro env cur e hagent hgen hday hcur hprev hne
  have hcne : cur.content.isEmpty = false := by
    cases h : cur.content
    · exact absurd h hne
    · rfl
  have hres : resolveTarget env "copy" = .ok (some cur.id, cur.content) := by
    unfold resolveTarget
    rw [if_pos hday, hcur, hprev]
    simp only [List.isEmpty_nil, if_true, hcne, Bool.false_eq_true, if_false]
  have hregen : regeneratePostCopy env.primaryPlatform cur.content env.fieldsToModify
      env.genResponse = cur.content := by
    rw [hgen]; rfl
  have hexec : execContentModification env =
      (.ok [("asset_id", JVal.jstr cur.id), ("day_number", jOfDay env.dayNumber),
            ("asset_type", JVal.jstr "copy")],
       [Ev.versionWrite (some cur.id) cur.content,
        Ev.updateContent (some cur.id) cur.content "completed"]) := by
    unfold execContentModification
    rw [hres]
    simp [hregen]
  have haction : execAction env =
      (.ok [("asset_id", JVal.jstr cur.id), ("day_number", jOfDay env.dayNumber),
            ("asset_type", JVal.jstr "copy")],
       [Ev.versionWrite (some cur.id) cur.content,
        Ev.updateContent (some cur.id) cur.content "completed"]) := by
    unfold execAction
    rw [hagent]
    simp only [beq_self_eq_true, if_true]
    exact hexec
  refine ⟨hregen, ?_, ?_⟩
  · show (([env].map execAction).enum.map (fun p => mkOutcome (p.1 + 1) p.2.1)) = _
    rw [List.map_cons, List.map_nil, haction]
    simp [mkOutcome, dmem]
  · show (([env].map execAction).map Prod.snd).flatten ++ [Ev.modNewContentWrite] = _
    rw [List.map_cons, List.map_nil, haction]
    simp

/-- A content action whose generator call fails with a JSON parse error. -/
def c10Env : ActionEnv :=
  { agent := "content_agent", dayNumber := some 2,
    curAsset := some { id := "c2", content := [("caption", JVal.jstr "keep me")] },
    genResponse := .error "Invalid JSON response" }

/-- Witness for C10 at a concrete failing generator call. -/
theorem contentModification_generator_failure_witness :
    (executeModificationPlan [c10Env]).outcomes =
      [{ action := 1, success := true, error := none }] ∧
    (executeModificationPlan [c10Env]).trace =
      [Ev.versionWrite (some "c2") [("caption", JVal.jstr "keep me")],
       Ev.updateContent (some "c2") [("caption", JVal.jstr "keep me")] "completed",
       Ev.modNewContentWrite] := by
  have h := contentModification_generator_failure_is_silent_success c10Env
    { id := "c2", content := [("caption", JVal.jstr "keep me")] }
    "Invalid JSON response" rfl rfl (by decide) rfl rfl (by decide)
  exact ⟨h.2.1, h.2.2⟩

/-- C2: a batch of N actions always yields exactly N recorded outcomes,
the aggregate success count is the number of outcomes marked successful,
and outcome i is a function of action i alone — an exception raised by
one action (caught and recorded as its own failed outcome) can never
abort or skip a sibling's outcome. -/
theorem modification_batch_isolation :
    ∀ envs : List ActionEnv,
    (executeModificationPlan envs).outcomes.length = envs.length ∧
    (executeModificationPlan envs).totalActions = envs.length ∧
    (executeModificationPlan envs).successful =
      ((executeModificationPlan envs).outcomes.filter (fun o => o.success)).length ∧
    (∀ i : Nat, (executeModificationPlan envs).outcomes[i]? =
      (envs[i]?).map (fun env => mkOutcome (i + 1) (execAction env).1)) := by
  intro envs
  refine ⟨?_, rfl, rfl, ?_⟩
  · show ((envs.map execAction).enum.map (fun p => mkOutcome (p.1 + 1) p.2.1)).length
        = envs.length
    simp
  · intro i
    show ((envs.map execAction).enum.map (fun p => mkOutcome (p.1 + 1) p.2.1))[i]? = _
    rw [List.getElem?_map, List.getElem?_enum, List.getElem?_map]
    cases h : envs[i]? <;> simp

/-- A 3-action demo batch whose middle action's generator raises. -/
def demoBatch : List ActionEnv :=
  [{ agent := "content_agent", dayNumber := some 1,
     curAsset := some { id := "a1", content := [("caption", JVal.jstr "one")] },
     genResponse := .ok [("caption", JVal.jstr "uno")] },
   { agent := "image_agent", dayNumber := some 2,
     curAsset := some { id := "a2", content := [("image_url", JVal.jstr "u")] },
     genResponse := .error "boom" },
   { agent := "content_agent", dayNumber := some 3,
     curAsset := some { id := "a3", content := [("caption", JVal.jstr "three")] },
     genResponse := .ok [("caption", JVal.jstr "tres")] }]

/-- Witness for C2: the 3-action batch with a raising middle action
yields exactly 3 outcomes — success, failure with the captured error,
success — and the aggregate count 2. -/
theorem modification_batch_isolation_witness :
    (executeModificationPlan demoBatch).outcomes.length = 3 ∧
    (executeModificationPlan demoBatch).outcomes.map (fun o => o.success) =
      [true, false, true] ∧
    (executeModificationPlan demoBatch).outcomes.map (fun o => o.error) =
      [none, some "boom", none] ∧
    (executeModificationPlan demoBatch).successful = 2 :=
  ⟨((modification_batch_isolation demoBatch).1).trans (by decide),
   by decide, by decide, by decide⟩

/-- A single-action batch that runs an influencer search successfully. -/
def c8Batch : List ActionEnv :=
  [{ agent := "influencer_agent",
     genListResponse := .ok [[("name", JVal.jstr "Anna")], [("name", JVal.jstr "Ben")]] }]

/-- Counterexample to C8 as stated: a successful single-influencer-action
batch writes the Modification Record's `new_content` twice — once inside
`_execute_influencer_modification` when the action finishes, and once
more in the aggregate update at the end of `execute_modification_plan` —
so `new_content` is not "filled exactly once", and it already becomes
non-null before the batch's aggregate bookkeeping completes. -/
theorem newContent_single_write_counterexample :
    newContentWrites ((executeModificationPlan c8Batch).trace) = 2 ∧
    newContentWrites ((executeModificationPlan c8Batch).trace) ≠ 1 := by
  refine ⟨?_, ?_⟩ <;> decide

theorem execAction_no_modwrite (env : ActionEnv)
    (h1 : env.agent ≠ "influencer_agent") (h2 : env.agent ≠ "plan_agent") :
    newContentWrites (execAction env).2 = 0 := by
  unfold execAction
  by_cases hc : env.agent = "content_agent"
  · have hb : (env.agent == "content_agent") = true := beq_iff_eq.mpr hc
    rw [hb]
    simp only [if_true]
    unfold execContentModification
    cases hr : resolveTarget env "copy" with
    | error e => rfl
    | ok pr => obtain ⟨aid, prev⟩ := pr; rfl
  · have hbc : (env.agent == "content_agent") = false := beq_eq_false_iff_ne.mpr hc
    rw [hbc]
    simp only [Bool.false_eq_true, if_false]
    by_cases hi : env.agent = "image_agent"
    · have hb : (env.agent == "image_agent") = true := beq_iff_eq.mpr hi
      rw [hb]
      simp only [if_true]
      unfold execImageModification
      cases hr : resolveTarget env "image" with
      | error e => rfl
      | ok pr =>
          obtain ⟨aid, prev⟩ := pr
          cases env.genResponse with
          | error e => rfl
          | ok newImage => rfl
    · have hbi : (env.agent == "image_agent") = false := beq_eq_false_iff_ne.mpr hi
      rw [hbi]
      simp only [Bool.false_eq_true, if_false]
      have hbinf : (env.agent == "influencer_agent") = false := beq_eq_false_iff_ne.mpr h1
      have hbp : (env.agent == "plan_agent") = false := beq_eq_false_iff_ne.mpr h2
      rw [hbinf, hbp]
      simp only [Bool.false_eq_true, if_false]
      rfl

/-- C8 (amended): the aggregate update at the end of
`execute_modification_plan` always writes `new_content` once, as the
final store event of the batch; for batches containing only copy/image
actions (the synchronously-routed and purely day-scoped ones) that is
the batch's only `new_content` write, so `new_content` flips from null
to non-null exactly when the batch finishes.  Batches containing an
influencer or plan action additionally write `new_content` when those
actions complete, so for them it can become non-null earlier and be
written more than once.  The polling endpoint reports `completed`
exactly when `new_content` is non-null and `processing` exactly while
it is null. -/
theorem newContent_write_discipline :
    ∀ envs : List ActionEnv,
    (∀ env ∈ envs, env.agent ≠ "influencer_agent" ∧ env.agent ≠ "plan_agent") →
    newContentWrites ((executeModificationPlan envs).trace) = 1 ∧
    ((executeModificationPlan envs).trace).getLast? = some Ev.modNewContentWrite ∧
    (∀ nc : Option JVal,
      (pollStatus nc = "completed" ↔ nc ≠ none) ∧
      (pollStatus nc = "processing" ↔ nc = none)) := by
  intro envs h
  refine ⟨?_, ?_, ?_⟩
  · show newContentWrites (((envs.map execAction).map Prod.snd).flatten
        ++ [Ev.modNewContentWrite]) = 1
    unfold newContentWrites
    rw [List.filter_append]
    rw [List.length_append]
    have hflat : (((envs.map execAction).map Prod.snd).flatten.filter
        (fun e => e == Ev.modNewContentWrite)).length = 0 := by
      induction envs with
      | nil => rfl
      | cons e t ih =>
          rw [List.map_cons, List.map_cons, List.flatten_cons, List.filter_append,
            List.length_append]
          have he := execAction_no_modwrite e (h e (by simp)).1 (h e (by simp)).2
          unfold newContentWrites at he
          rw [he]
          have ht := ih (fun env hm => h env (by simp [hm]))
          rw [ht]
    rw [hflat]
    rfl
  · show (((envs.map execAction).map Prod.snd).flatten
        ++ [Ev.modNewContentWrite]).getLast? = some Ev.modNewContentWrite
    rw [List.getLast?_append]
    rfl
  · intro nc
    cases nc <;> simp [pollStatus]

/-- Witness for C8's amended theorem on a concrete copy-only batch. -/
theorem newContent_write_discipline_witness :
    newContentWrites ((executeModificationPlan
      [{ agent := "content_agent", dayNumber := some 1,
         curAsset := some { id := "w1", content := [("caption", JVal.jstr "x")] },
         genResponse := .ok [("caption", JVal.jstr "y")] }]).trace) = 1 ∧
    pollStatus (some (JVal.jstr "done")) = "completed" ∧
    pollStatus none = "processing" :=
  ⟨(newContent_write_discipline
      [{ agent := "content_agent", dayNumber := some 1,
         curAsset := some { id := "w1", content := [("caption", JVal.jstr "x")] },
         genResponse := .ok [("caption", JVal.jstr "y")] }]
      (by decide)).1,
   rfl, rfl⟩

/-- C3: when every per-day copy generation of Phase 1 fails,
`execute_campaign` returns `False`, the campaign's final status is
`failed`, and none of the three Phase 2 tasks (images, influencers,
plan) is ever launched. -/
theorem phase1_gate_aborts_campaign :
    ∀ env : CampaignEnv,
    (∀ p ∈ env.schedule, ∃ e, p.2 = Except.error e) →
    (executeCampaign env).returned = false ∧
    (executeCampaign env).finalStatus = "failed" ∧
    CEv.imagesTask ∉ (executeCampaign env).trace ∧
    CEv.influencersTask ∉ (executeCampaign env).trace ∧
    CEv.planTask ∉ (executeCampaign env).trace := by
  intro env h
  have hnil : generateAllCopy env.schedule = [] := by
    unfold generateAllCopy
    rw [List.filterMap_eq_nil_iff]
    intro p hp
    obtain ⟨e, he⟩ := h p hp
    rw [he]
  unfold executeCampaign
  rw [hnil]
  simp

/-- Witness for C3: a two-day schedule where both generations raise. -/
theorem phase1_gate_aborts_campaign_witness :
    (executeCampaign
      { schedule := [(1, .error "llm down"), (2, .error "llm down")],
        imagesResult := .ok [], influencersResult := .ok [], planResult := .ok none }).returned
      = false ∧
    (executeCampaign
      { schedule := [(1, .error "llm down"), (2, .error "llm down")],
        imagesResult := .ok [], influencersResult := .ok [], planResult := .ok none }).finalStatus
      = "failed" := by
  have h := phase1_gate_aborts_campaign
    { schedule := [(1, .error "llm down"), (2, .error "llm down")],
      imagesResult := .ok [], influencersResult := .ok [], planResult := .ok none }
    (by
      intro p hp
      simp only [List.mem_cons, List.not_mem_nil, or_false] at hp
      rcases hp with h' | h' <;> exact ⟨"llm down", by rw [h']⟩)
  exact ⟨h.1, h.2.1⟩

/-- Whether the gathered images task counts as a succeeded component:
it did not raise and produced a non-empty asset list. -/
def imagesSucceeded (env : CampaignEnv) : Bool :=
  match env.imagesResult with
  | .ok l => !l.isEmpty
  | .error _ => false

/-- Whether the gathered influencers task counts as a succeeded component. -/
def influencersSucceeded (env : CampaignEnv) : Bool :=
  match env.influencersResult with
  | .ok l => !l.isEmpty
  | .error _ => false

/-- Whether the gathered plan task counts as a succeeded component: it
did not raise and returned a truthy plan record. -/
def planSucceeded (env : CampaignEnv) : Bool :=
  match env.planResult with
  | .ok (some p) => !p.isEmpty
  | .ok none => false
  | .error _ => false

/-- C4: whenever Phase 1 produces at least one copy asset, the campaign
always finishes `completed` (whatever subset of the three Phase 2 tasks
raised), `execute_campaign` returns `True`, and the reported component
count is 1 (copy) plus one per succeeded Phase 2 component out of 4. -/
theorem phase2_isolation_completion :
    ∀ env : CampaignEnv,
    generateAllCopy env.schedule ≠ [] →
    (executeCampaign env).returned = true ∧
    (executeCampaign env).finalStatus = "completed" ∧
    (executeCampaign env).successCount =
      some (1 + b2n (imagesSucceeded env) + b2n (influencersSucceeded env)
        + b2n (planSucceeded env)) := by
  intro env h
  have hne : (generateAllCopy env.schedule).isEmpty = false := by
    cases hc : generateAllCopy env.schedule
    · exact absurd hc h
    · rfl
  unfold executeCampaign
  simp only [hne, Bool.false_eq_true, if_false]
  refine ⟨trivial, trivial, ?_⟩
  unfold imagesSucceeded influencersSucceeded planSucceeded
  rcases env.imagesResult with e1 | l1 <;> rcases env.influencersResult with e2 | l2 <;>
    rcases env.planResult with e3 | (_ | pd) <;> rfl

/-- Witness for C4: one day of copy succeeds, the images task raises,
influencers and plan succeed — the status is `completed` and the count
is exactly 3 of 4. -/
theorem phase2_isolation_completion_witness :
    (executeCampaign
      { schedule := [(1, .ok [("caption", JVal.jstr "hi")])],
        imagesResult := .error "image service down",
        influencersResult := .ok [[("name", JVal.jstr "Anna")]],
        planResult := .ok (some [("phases", JVal.jstrList ["launch"])]) }).finalStatus
      = "completed" ∧
    (executeCampaign
      { schedule := [(1, .ok [("caption", JVal.jstr "hi")])],
        imagesResult := .error "image service down",
        influencersResult := .ok [[("name", JVal.jstr "Anna")]],
        planResult := .ok (some [("phases", JVal.jstrList ["launch"])]) }).successCount
      = some 3 := by
  have h := phase2_isolation_completion
    { schedule := [(1, .ok [("caption", JVal.jstr "hi")])],
      imagesResult := .error "image service down",
      influencersResult := .ok [[("name", JVal.jstr "Anna")]],
      planResult := .ok (some [("phases", JVal.jstrList ["launch"])]) }
    (by decide)
  exact ⟨h.2.1, h.2.2.trans (by decide)⟩

/-- C5 (amended): `modify_canvas` executes a batch synchronously
(returning status `completed` with the result) exactly when **no**
action's agent is `image_agent`, `influencer_agent` or `plan_agent`;
any such action makes the whole batch a background task whose caller
immediately receives status `accepted`.  Restricted to batches whose
agents all belong to the four known generators this is equivalent to
"every action targets the copy generator", but an action with an
unrecognised agent is also routed synchronously. -/
theorem modification_routing :
    ∀ agents : List String,
    ((routeModification agents).2 = true ↔ hasAsyncAgents agents = false) ∧
    (hasAsyncAgents agents = false ↔
      ∀ a ∈ agents, a ≠ "image_agent" ∧ a ≠ "influencer_agent" ∧ a ≠ "plan_agent") ∧
    ((∀ a ∈ agents, a = "content_agent" ∨ a = "image_agent" ∨ a = "influencer_agent"
        ∨ a = "plan_agent") →
      ((routeModification agents).2 = true ↔ ∀ a ∈ agents, a = "content_agent")) ∧
    ((routeModification agents).2 = true ↔ (routeModification agents).1 = "completed") ∧
    ((routeModification agents).2 = false ↔ (routeModification agents).1 = "accepted") := by
  intro agents
  have hiff : hasAsyncAgents agents = false ↔
      ∀ a ∈ agents, a ≠ "image_agent" ∧ a ≠ "influencer_agent" ∧ a ≠ "plan_agent" := by
    unfold hasAsyncAgents
    rw [List.any_eq_false]
    constructor
    · intro hf a ha
      have hthis := hf a ha
      simp only [Bool.or_eq_true, beq_iff_eq, not_or] at hthis
      exact ⟨hthis.1.1, hthis.1.2, hthis.2⟩
    · intro hf a ha
      have hthis := hf a ha
      simp only [Bool.or_eq_true, beq_iff_eq, not_or]
      exact ⟨⟨hthis.1, hthis.2.1⟩, hthis.2.2⟩
  have hroute : (routeModification agents).2 = true ↔ hasAsyncAgents agents = false := by
    unfold routeModification
    cases h : hasAsyncAgents agents <;> simp [h]
  refine ⟨hroute, hiff, ?_, ?_, ?_⟩
  · intro hknown
    rw [hroute, hiff]
    constructor
    · intro hf a ha
      rcases hknown a ha with h' | h' | h' | h'
      · exact h'
      · exact absurd h' (hf a ha).1
      · exact absurd h' (hf a ha).2.1
      · exact absurd h' (hf a ha).2.2
    · intro hf a ha
      rw [hf a ha]
      refine ⟨by decide, by decide, by decide⟩
  · unfold routeModification
    cases h : hasAsyncAgents agents <;> simp [h]
  · unfold routeModification
    cases h : hasAsyncAgents agents <;> simp [h]

/-- Witness for C5's amended theorem: a copy-only batch is synchronous
with status `completed`; adding an image action flips the whole batch
to background with status `accepted`. -/
theorem modification_routing_witness :
    (routeModification ["content_agent", "content_agent"]).2 = true ∧
    (routeModification ["content_agent", "content_agent"]).1 = "completed" ∧
    (routeModification ["content_agent", "image_agent"]).2 = false ∧
    (routeModification ["content_agent", "image_agent"]).1 = "accepted" := by
  refine ⟨?_, ?_, ?_, ?_⟩
  · exact ((modification_routing ["content_agent", "content_agent"]).2.2.1
      (by decide)).mpr (by decide)
  · decide
  · exact ((modification_routing ["content_agent", "image_agent"]).2.2.2.2).mpr (by decide)
  · decide

/-- Counterexample to C5 as stated: a batch whose only action carries an
agent name outside the four known generators is NOT targeting the copy
generator, yet `modify_canvas` routes it synchronously (status
`completed`), because the code only checks for the three async agents. -/
theorem modification_routing_counterexample :
    (routeModification ["mystery_agent"]).2 = true ∧
    (routeModification ["mystery_agent"]).1 = "completed" ∧
    ¬ (∀ a ∈ (["mystery_agent"] : List String), a = "content_agent") := by
  refine ⟨by decide, by decide, ?_⟩
  intro hall
  exact absurd (hall "mystery_agent" (by decide)) (by decide)

theorem foldr_max_of_le (l : List Nat) (b : Nat) (h : ∀ x ∈ l, x ≤ b) :
    l.foldr max b = b := by
  induction l with
  | nil => rfl
  | cons a t ih =>
      rw [List.foldr_cons, ih (fun x hx => h x (by simp [hx]))]
      exact Nat.max_eq_right (h a (by simp))

theorem foldr_max_range (n : Nat) : (List.range' 1 n).foldr max 0 = n := by
  induction n with
  | zero => rfl
  | succ m ih =>
      rw [List.range'_1_concat, List.foldr_append, List.foldr_cons, List.foldr_nil]
      have h1 : max (1 + m) 0 = 1 + m := Nat.max_eq_left (Nat.zero_le _)
      rw [h1]
      have h2 : (List.range' 1 m).foldr max (1 + m) = 1 + m := by
        apply foldr_max_of_le
        intro x hx
        have := List.mem_range'_1.mp hx
        omega
      rw [h2]
      omega

theorem versionsOf_versionAsset_same (aid : String) (rows : List VersionRow) :
    versionsOf aid (versionAsset aid rows) =
      versionsOf aid rows ++ [maxVersion aid rows + 1] := by
  unfold versionAsset versionsOf
  rw [List.filter_append, List.map_append]
  congr 1
  simp [versionsOf]

theorem versionsOf_versionAsset_other (aid b : String) (rows : List VersionRow)
    (hne : b ≠ aid) :
    versionsOf aid (versionAsset b rows) = versionsOf aid rows := by
  unfold versionAsset versionsOf
  rw [List.filter_append, List.map_append]
  have : ([(b, maxVersion b rows + 1)].filter (fun r => r.1 == aid)) = [] := by
    simp [List.filter, beq_eq_false_iff_ne.mpr hne]
  rw [this]
  simp

theorem versionsOf_applySnapshots (ops : List String) (aid : String) :
    versionsOf aid (applySnapshots ops) = List.range' 1 (ops.count aid) := by
  induction ops using List.reverseRecOn with
  | nil => rfl
  | append_singleton ops a ih =>
      have happ : applySnapshots (ops ++ [a]) = versionAsset a (applySnapshots ops) := by
        unfold applySnapshots
        rw [List.foldl_append]
        rfl
      rw [happ]
      by_cases ha : a = aid
      · subst ha
        rw [versionsOf_versionAsset_same, ih]
        have hmax : maxVersion a (applySnapshots ops) = ops.count a := by
          unfold maxVersion
          rw [ih]
          exact foldr_max_range (ops.count a)
        rw [hmax]
        have hcount : (ops ++ [a]).count a = ops.count a + 1 := by
          simp [List.count_append]
        rw [hcount, List.range'_1_concat, Nat.add_comm 1 (ops.count a)]
      · rw [versionsOf_versionAsset_other aid a _ ha, ih]
        have hcount : (ops ++ [a]).count aid = ops.count aid := by
          simp [List.count_append, List.count_singleton]
          exact ha
        rw [hcount]

/-- C6: starting from an empty `asset_versions` table, after any
sequence of `_version_asset` snapshots the version numbers stored for
each asset are exactly `1, 2, ..., n` in insertion order: the first
snapshot of an asset gets `version_number` 1, every later one gets the
stored maximum plus one, and the per-asset sequence is strictly
increasing with no repeats. -/
theorem version_numbers_strictly_increasing :
    ∀ (ops : List String) (assetId : String),
    versionsOf assetId (applySnapshots ops) = List.range' 1 (ops.count assetId) ∧
    List.Pairwise (· < ·) (versionsOf assetId (applySnapshots ops)) ∧
    (ops.count assetId ≠ 0 →
      (versionsOf assetId (applySnapshots ops)).head? = some 1) ∧
    (∀ rows : List VersionRow,
      versionAsset assetId rows = rows ++ [(assetId, maxVersion assetId rows + 1)]) := by
  intro ops assetId
  have hmain := versionsOf_applySnapshots ops assetId
  refine ⟨hmain, ?_, ?_, fun rows => rfl⟩
  · rw [hmain]
    exact List.pairwise_lt_range' 1 (ops.count assetId)
  · intro hcount
    rw [hmain]
    cases hc : ops.count assetId with
    | zero => exact absurd hc hcount
    | succ m => rw [List.range'_succ]; rfl

/-- Witness for C6: three snapshots of asset `a` interleaved with one of
asset `b` number `a`'s versions 1, 2, 3 and `b`'s version 1. -/
theorem version_numbers_strictly_increasing_witness :
    versionsOf "a" (applySnapshots ["a", "b", "a", "a"]) = [1, 2, 3] ∧
    versionsOf "b" (applySnapshots ["a", "b", "a", "a"]) = [1] ∧
    (versionsOf "a" (applySnapshots ["a", "b", "a", "a"])).head? = some 1 :=
  ⟨((version_numbers_strictly_increasing ["a", "b", "a", "a"] "a").1).trans (by decide),
   ((version_numbers_strictly_increasing ["a", "b", "a", "a"] "b").1).trans (by decide),
   (version_numbers_strictly_increasing ["a", "b", "a", "a"] "a").2.2.1 (by decide)⟩

/-- C9: any message containing an influencer keyword (after
lower-casing) short-circuits `classify_modification`: the general
LLM-based classifier is never invoked, and the returned plan needs no
clarification and holds exactly one action — `regenerate` on asset type
`influencer`, applied to all, with `day_numbers` null. -/
theorem influencer_keyword_short_circuit :
    ∀ (message : String) (generalPath : Unit → MPlan),
    hasInfluencerKeyword message = true →
    classifyModification message generalPath = (influencerShortCircuitPlan message, false) ∧
    (classifyModification message generalPath).2 = false ∧
    (classifyModification message generalPath).1.needsClarification = false ∧
    (classifyModification message generalPath).1.actions =
      [{ assetType := "influencer", action := "regenerate", dayNumbers := none,
         applyTo := some "all", matchText := none, fields := [],
         userInstruction := message, modeHint := some "async" }] := by
  intro message generalPath h
  unfold classifyModification
  rw [h]
  exact ⟨rfl, rfl, rfl, rfl⟩

/-- Witness for C9 at a concrete message (note the capital letters and
the keyword occurring mid-sentence). -/
theorem influencer_keyword_short_circuit_witness :
    hasInfluencerKeyword "Please find Influencers in Mumbai" = true ∧
    (classifyModification "Please find Influencers in Mumbai"
        (fun _ => { needsClarification := true, clarifyMessage := some "?", actions := [] })).2
      = false ∧
    (classifyModification "Please find Influencers in Mumbai"
        (fun _ => { needsClarification := true, clarifyMessage := some "?", actions := [] })).1.actions
      = [{ assetType := "influencer", action := "regenerate", dayNumbers := none,
           applyTo := some "all", matchText := none, fields := [],
           userInstruction := "Please find Influencers in Mumbai", modeHint := some "async" }] := by
  have hk : hasInfluencerKeyword "Please find Influencers in Mumbai" = true := by decide
  have h := influencer_keyword_short_circuit "Please find Influencers in Mumbai"
    (fun _ => { needsClarification := true, clarifyMessage := some "?", actions := [] }) hk
  exact ⟨hk, h.2.1, h.2.2.2⟩
